import Mathlib

/-!
Verification of the core of `discord_message_extractor.py`: the stateful
scanner / field extractor (pass 1), the id-keyed message store, the reply-chain
resolver, and the per-user filter / statistics aggregator (pass 2).

Python strings become `String`, Python `None` becomes `Option`, Python dicts
(which preserve insertion order and overwrite in place) become association
lists, and Python floats produced by the statistics divisions become `ℚ`.
Python truthiness on strings / optional strings is modelled explicitly.
-/

set_option autoImplicit false

namespace DiscordExtractor

/-! ### Python string primitives used by the source -/

/-- Whitespace characters recognised by `str.split()` / `str.strip()` and by
the `\s` class of the `re` module (ASCII subset; the source never feeds the
non-ASCII whitespace code points to these after `normalize_spaces`). -/
def isPyWs (c : Char) : Bool :=
  c = ' ' || c = '\t' || c = '\n' || c = '\r' || c.toNat = 11 || c.toNat = 12

/-- Python `s.strip()`: remove leading and trailing whitespace. -/
def pyStrip (s : String) : String :=
  String.mk (((s.data.dropWhile isPyWs).reverse.dropWhile isPyWs).reverse)

/-- Helper for `pySplit`: accumulate the current word (reversed) while
splitting on runs of whitespace. -/
def splitWsAux : List Char → List Char → List (List Char)
  | [], [] => []
  | [], acc => [acc.reverse]
  | c :: rest, acc =>
    if isPyWs c then
      match acc with
      | [] => splitWsAux rest []
      | _ :: _ => acc.reverse :: splitWsAux rest []
    else splitWsAux rest (c :: acc)

/-- Python `s.split()` with no argument: split on whitespace runs, dropping
empty pieces. -/
def pySplit (s : String) : List String :=
  (splitWsAux s.data []).map String.mk

/-- Word counter with an "inside a word" flag; used to relate `pySplit` to
concatenation (the statistics code joins contents with a single space and
splits the result). -/
def countWordsAux : Bool → List Char → Nat
  | _, [] => 0
  | inw, c :: rest =>
    if isPyWs c then countWordsAux false rest
    else (if inw then 0 else 1) + countWordsAux true rest

/-- Python `' '.join(xs)`. -/
def joinSpace : List String → String
  | [] => ""
  | [x] => x
  | x :: y :: rest => x ++ " " ++ joinSpace (y :: rest)

/-- Python truthiness of an optional string (`None` and `""` are falsy). -/
def strOptTruthy : Option String → Bool
  | some s => !s.isEmpty
  | none => false

/-- Python `opt or default` on an optional string. -/
def pyOrOpt (o : Option String) (d : String) : String :=
  match o with
  | some s => if s.isEmpty then d else s
  | none => d

/-- Python `needle in haystack` on strings. -/
def containsSub (hay needle : String) : Bool :=
  (List.range (hay.data.length + 1)).any fun i => needle.data.isPrefixOf (hay.data.drop i)

/-- Python `s.startswith(pre)`. -/
def pyStartsWith (s pre : String) : Bool := pre.data.isPrefixOf s.data

/-- Python `s.lower()` (`String.toLower` lowers the ASCII range, which covers
the source's usage on search terms). -/
def pyLower (s : String) : String := s.toLower

/-! ### `strip_tags` and `normalize_spaces` -/

/-- Helper for `stripTags`: after a `<` and one non-`>` character, skip to the
first `>`, returning the remainder, or `none` when no `>` follows. -/
def skipToGt : List Char → Option (List Char)
  | [] => none
  | c :: rest => if c = '>' then some rest else skipToGt rest

/-- Helper for `stripTags`: attempt to match `[^>]+>` (at least one non-`>`
character followed by `>`). -/
def findTagEnd : List Char → Option (List Char)
  | [] => none
  | c :: rest => if c = '>' then none else skipToGt rest

/-- Helper for `stripTags` on character lists. The fuel argument bounds the
recursion depth; `stripTags` supplies the input length, which is never
exhausted because every step consumes at least one character (a successful
`findTagEnd` consumes strictly more), so the `0, cs` fallback is
unreachable. -/
def stripTagsAux : Nat → List Char → List Char
  | _, [] => []
  | 0, cs => cs
  | fuel + 1, c :: rest =>
    if c = '<' then
      match findTagEnd rest with
      | some rest' => stripTagsAux fuel rest'
      | none => c :: stripTagsAux fuel rest
    else c :: stripTagsAux fuel rest

/-- Source `strip_tags`: `re.sub(r'<[^>]+>', '', s)`. -/
def stripTags (s : String) : String := String.mk (stripTagsAux s.data.length s.data)

/-- Source `normalize_spaces`: replace narrow/no-break space variants by an
ordinary space, then strip. -/
def normalizeSpaces (s : String) : String :=
  pyStrip (String.mk (s.data.map fun c =>
    if c.toNat = 0x202F || c.toNat = 0xA0 || c.toNat = 0x2009 then ' ' else c))

/-! ### Timestamp parsing

Models `parse_timestamp`, which tries `datetime.strptime` with the formats
`"%m/%d/%Y %I:%M %p"`, `"%m/%d/%Y %H:%M"` and `"%Y-%m-%d %H:%M:%S"` in order.
`strptime` compiles each directive to a regular-expression alternation tried
left to right with backtracking, anchors the match at the start, takes the
first match found, requires it to consume the whole string, and finally
validates the field values through the `datetime` constructor. -/

structure DateTime where
  year : Nat
  month : Nat
  day : Nat
  hour : Nat
  minute : Nat
  second : Nat
deriving Repr, DecidableEq

def isLeapYear (y : Nat) : Bool :=
  y % 4 = 0 && (y % 100 ≠ 0 || y % 400 = 0)

def daysInMonth (y m : Nat) : Nat :=
  if m = 2 then (if isLeapYear y then 29 else 28)
  else if m = 4 || m = 6 || m = 9 || m = 11 then 30
  else 31

/-- Validation performed by the `datetime` constructor (raises on failure). -/
def mkDateTime (y mo d h mi s : Nat) : Option DateTime :=
  if 1 ≤ y && y ≤ 9999 && 1 ≤ mo && mo ≤ 12 && 1 ≤ d && d ≤ daysInMonth y mo
      && h ≤ 23 && mi ≤ 59 && s ≤ 59
  then some ⟨y, mo, d, h, mi, s⟩ else none

/-- Python `datetime` comparison: lexicographic on the fields. -/
def dtLt (a b : DateTime) : Bool :=
  a.year < b.year || (a.year = b.year &&
    (a.month < b.month || (a.month = b.month &&
      (a.day < b.day || (a.day = b.day &&
        (a.hour < b.hour || (a.hour = b.hour &&
          (a.minute < b.minute || (a.minute = b.minute &&
            a.second < b.second)))))))))

/-- Names produced by `strftime('%A')`, indexed by Zeller's congruence value
(0 = Saturday). -/
def dayNames : List String :=
  ["Saturday", "Sunday", "Monday", "Tuesday", "Wednesday", "Thursday", "Friday"]

/-- Python `dt.strftime('%A')`, computed with Zeller's congruence. -/
def weekdayName (dt : DateTime) : String :=
  let y := if dt.month ≤ 2 then dt.year - 1 else dt.year
  let m := if dt.month ≤ 2 then dt.month + 12 else dt.month
  let k := y % 100
  let j := y / 100
  dayNames.getD ((dt.day + (13 * (m + 1)) / 5 + k + k / 4 + j / 4 + 5 * j) % 7) ""

/-- Backtracking matcher: all ways to consume a prefix, in the order the
regular-expression engine explores them (first element = first match). -/
def M (α : Type) : Type := List Char → List (α × List Char)

def mBind {α β : Type} (p : M α) (f : α → M β) : M β :=
  fun cs => (p cs).flatMap fun ar => f ar.1 ar.2

def mPure {α : Type} (a : α) : M α := fun cs => [(a, cs)]

def mAlts {α : Type} (ps : List (M α)) : M α :=
  fun cs => (ps.map fun p => p cs).flatten

/-- Match one literal character. -/
def mChar (c : Char) : M Unit :=
  fun cs =>
    match cs with
    | [] => []
    | c' :: rest => if c' = c then [((), rest)] else []

def digitVal (c : Char) : Nat := c.toNat - 48

/-- Match a single character in an inclusive range, yielding its digit value. -/
def mRange (lo hi : Char) : M Nat :=
  fun cs =>
    match cs with
    | [] => []
    | c :: rest => if lo ≤ c && c ≤ hi then [(digitVal c, rest)] else []

/-- Match a fixed first character followed by a ranged second character,
yielding the two-digit value. -/
def mTwo (first : Char) (lo hi : Char) : M Nat :=
  fun cs =>
    match cs with
    | c1 :: c2 :: rest =>
      if c1 = first && (lo ≤ c2 && c2 ≤ hi) then [(10 * digitVal c1 + digitVal c2, rest)] else []
    | _ => []

/-- Match a ranged first character followed by any digit. -/
def mRangeDigit (lo hi : Char) : M Nat :=
  fun cs =>
    match cs with
    | c1 :: c2 :: rest =>
      if (lo ≤ c1 && c1 ≤ hi) && c2.isDigit then [(10 * digitVal c1 + digitVal c2, rest)] else []
    | _ => []

/-- Match any single digit. -/
def mDigit : M Nat :=
  fun cs =>
    match cs with
    | [] => []
    | c :: rest => if c.isDigit then [(digitVal c, rest)] else []

/-- Directive `%m` / `%I`: regex `1[0-2]|0[1-9]|[1-9]`. -/
def mMonth : M Nat := mAlts [mTwo '1' '0' '2', mTwo '0' '1' '9', mRange '1' '9']

/-- Directive `%d`: regex `3[01]|[12]\d|0[1-9]|[1-9]`. -/
def mDay : M Nat := mAlts [mTwo '3' '0' '1', mRangeDigit '1' '2', mTwo '0' '1' '9', mRange '1' '9']

/-- Directive `%H`: regex `2[0-3]|[0-1]\d|\d`. -/
def mHour24 : M Nat := mAlts [mTwo '2' '0' '3', mRangeDigit '0' '1', mDigit]

/-- Directive `%M`: regex `[0-5]\d|\d`. -/
def mMinute : M Nat := mAlts [mRangeDigit '0' '5', mDigit]

/-- Directive `%S`: regex `6[0-1]|[0-5]\d|\d`. -/
def mSecond : M Nat := mAlts [mTwo '6' '0' '1', mRangeDigit '0' '5', mDigit]

/-- Directive `%Y`: regex `\d\d\d\d`. -/
def mYear : M Nat :=
  fun cs =>
    match cs with
    | c1 :: c2 :: c3 :: c4 :: rest =>
      if c1.isDigit && c2.isDigit && c3.isDigit && c4.isDigit then
        [(1000 * digitVal c1 + 100 * digitVal c2 + 10 * digitVal c3 + digitVal c4, rest)]
      else []
    | _ => []

/-- Directive `%p`: regex `(am|pm)` with `IGNORECASE`; yields `true` for pm. -/
def mAmPm : M Bool :=
  fun cs =>
    (match cs with
     | a :: m :: rest =>
       if (a = 'a' || a = 'A') && (m = 'm' || m = 'M') then [(false, rest)] else []
     | _ => []) ++
    (match cs with
     | p :: m :: rest =>
       if (p = 'p' || p = 'P') && (m = 'm' || m = 'M') then [(true, rest)] else []
     | _ => [])

/-- Whitespace in a `strptime` format becomes the greedy regex `\s+`:
longest run first, backtracking to shorter nonempty runs. -/
def mWs : M Unit :=
  fun cs =>
    let n := (cs.takeWhile isPyWs).length
    (List.range n).map fun i => ((), cs.drop (n - i))

/-- Hour adjustment performed by `strptime` for `%I` with `%p`. -/
def hourFrom12 (h12 : Nat) (isPm : Bool) : Nat :=
  if isPm then (if h12 ≠ 12 then h12 + 12 else 12)
  else (if h12 = 12 then 0 else h12)

/-- Format `"%m/%d/%Y %I:%M %p"`. -/
def fmtMDY12 : M (Option DateTime) :=
  mBind mMonth fun mo => mBind (mChar '/') fun _ =>
  mBind mDay fun d => mBind (mChar '/') fun _ =>
  mBind mYear fun y => mBind mWs fun _ =>
  mBind mMonth fun h12 => mBind (mChar ':') fun _ =>
  mBind mMinute fun mi => mBind mWs fun _ =>
  mBind mAmPm fun pm =>
  mPure (mkDateTime y mo d (hourFrom12 h12 pm) mi 0)

/-- Format `"%m/%d/%Y %H:%M"`. -/
def fmtMDY24 : M (Option DateTime) :=
  mBind mMonth fun mo => mBind (mChar '/') fun _ =>
  mBind mDay fun d => mBind (mChar '/') fun _ =>
  mBind mYear fun y => mBind mWs fun _ =>
  mBind mHour24 fun h => mBind (mChar ':') fun _ =>
  mBind mMinute fun mi =>
  mPure (mkDateTime y mo d h mi 0)

/-- Format `"%Y-%m-%d %H:%M:%S"`. -/
def fmtISO : M (Option DateTime) :=
  mBind mYear fun y => mBind (mChar '-') fun _ =>
  mBind mMonth fun mo => mBind (mChar '-') fun _ =>
  mBind mDay fun d => mBind mWs fun _ =>
  mBind mHour24 fun h => mBind (mChar ':') fun _ =>
  mBind mMinute fun mi => mBind (mChar ':') fun _ =>
  mBind mSecond fun s =>
  mPure (mkDateTime y mo d h mi s)

/-- Run one format the way `strptime` does: take the first match, require the
whole string consumed, then the constructor validation result. -/
def runFmt (p : M (Option DateTime)) (s : String) : Option DateTime :=
  match p s.data with
  | [] => none
  | (odt, rest) :: _ => if rest.isEmpty then odt else none

/-- Source `parse_timestamp`: try the three formats in order, first success
wins, `None` when all fail. -/
def parseTimestamp (s : String) : Option DateTime :=
  match runFmt fmtMDY12 s with
  | some dt => some dt
  | none =>
    match runFmt fmtMDY24 s with
    | some dt => some dt
    | none => runFmt fmtISO s

/-! ### Data model: message records, scan state, id-keyed store

A container is modelled by the outcome of the regular-expression searches
`process_container` performs on its text span: each field below is the
corresponding captured group (or marker test) of the source's compiled
patterns. -/

structure Container where
  /-- Group 1 of `message_id_re` over the container's opening marker. -/
  msgId : Option String
  /-- Group 1 of `reply_link_re` inside group 1 of `reply_div_re`. -/
  replyMsgId : Option String
  /-- Groups 1 (digits of `data-user-id`) and 2 (raw name span) of `author_re`. -/
  author : Option (String × String)
  /-- Group 1 of `color_re` (consulted only when `author_re` matched). -/
  colorMatch : Option String
  /-- Group 1 of `full_ts_re`. -/
  fullTs : Option String
  /-- Group 1 of `title_ts_re`. -/
  titleTs : Option String
  /-- Group 1 of `short_ts_re`. -/
  shortTs : Option String
  /-- Group 1 of `inner_span_re` (markdown-preserve span). -/
  innerSpan : Option String
  /-- Group 1 of `content_div_re`. -/
  contentDiv : Option String
  /-- Whether `attachment_marker_re` matches. -/
  hasAttachmentMarker : Bool
  /-- Group 1 of `attachment_href_re`. -/
  attachmentHref : Option String
  /-- Group 1 of `img_alt_re`. -/
  imgAlt : Option String
deriving Repr, DecidableEq

structure MessageRecord where
  user_id : String
  username : String
  color : Option String
  content : String
  timestamp : String
  reply_to_msg_id : Option String
  message_id : String
deriving Repr, DecidableEq

/-- Scanner-local inherited state (`last_full_date`, `prev_author_*`). -/
structure ScanState where
  lastFullDate : Option String
  prevAuthorId : Option String
  prevAuthorName : Option String
  prevAuthorColor : Option String
deriving Repr, DecidableEq

def initialScanState : ScanState := ⟨none, none, none, none⟩

/-- Association-list model of a Python dict: insertion order preserved,
overwriting keeps the original position. -/
def alInsert {α : Type} : List (String × α) → String → α → List (String × α)
  | [], k, v => [(k, v)]
  | (k', v') :: rest, k, v =>
    if k' = k then (k, v) :: rest else (k', v') :: alInsert rest k v

def alLookup {α : Type} : List (String × α) → String → Option α
  | [], _ => none
  | (k', v') :: rest, k => if k' = k then some v' else alLookup rest k

/-- Message store `self.all_messages`: dict from message id to record. -/
def Store : Type := List (String × MessageRecord)

def storeInsert (st : Store) (k : String) (v : MessageRecord) : Store := alInsert st k v

def storeLookup (st : Store) (k : String) : Option MessageRecord := alLookup st k

/-! ### Field extraction (`process_container`) -/

/-- Python `href.split('/')[-1].split('?')[0]`. -/
def attachmentFilename (href : String) : String :=
  (((href.splitOn "/").getLastD "").splitOn "?").headD ""

/-- Helper for `htmlUnescape`; the fuel argument bounds the recursion depth
and is never exhausted when seeded with the input length, because every step
consumes at least one character. -/
def htmlUnescapeAux : Nat → List Char → List Char
  | _, [] => []
  | 0, cs => cs
  | fuel + 1, c :: rest =>
    if c = '&' then
      if ['a', 'm', 'p', ';'].isPrefixOf rest then '&' :: htmlUnescapeAux fuel (rest.drop 4)
      else if ['l', 't', ';'].isPrefixOf rest then '<' :: htmlUnescapeAux fuel (rest.drop 3)
      else if ['g', 't', ';'].isPrefixOf rest then '>' :: htmlUnescapeAux fuel (rest.drop 3)
      else if ['q', 'u', 'o', 't', ';'].isPrefixOf rest then '"' :: htmlUnescapeAux fuel (rest.drop 5)
      else if ['#', '3', '9', ';'].isPrefixOf rest then '\'' :: htmlUnescapeAux fuel (rest.drop 4)
      else c :: htmlUnescapeAux fuel rest
    else c :: htmlUnescapeAux fuel rest

/-- Minimal model of `html.unescape`, restricted to the five basic character
references; the full named-reference table of the stdlib is not modelled (no
verified property depends on it). -/
def htmlUnescape (s : String) : String :=
  String.mk (htmlUnescapeAux s.data.length s.data)

/-- Author-state update of `process_container`: on an explicit author marker,
overwrite the inherited author fields (the name resets to `None` when the
captured name span is the empty string, because the source guards it with
`if a.group(2)`); the color is updated only when `color_re` also matches. -/
def updateAuthorState (s : ScanState) (c : Container) : ScanState :=
  match c.author with
  | none => s
  | some (aid, rawName) =>
    { s with
      prevAuthorId := some (pyStrip aid)
      prevAuthorName := if rawName.isEmpty then none else some (pyStrip (stripTags rawName))
      prevAuthorColor :=
        match c.colorMatch with
        | some col => some (pyStrip col)
        | none => s.prevAuthorColor }

/-- Timestamp resolution of `process_container`: full link text, else title
attribute, else short timestamp completed with the last known date. Returns
the optional timestamp string and the updated `last_full_date`. -/
def resolveTimestamp (s : ScanState) (c : Container) : Option String × Option String :=
  match c.fullTs with
  | some raw =>
    let tsRaw := normalizeSpaces (stripTags raw)
    let datePart := (pySplit tsRaw).find? fun p => p.contains '/'
    (some tsRaw,
     match datePart with
     | some d => some d
     | none => s.lastFullDate)
  | none =>
    match c.titleTs with
    | some raw => (some (normalizeSpaces (stripTags raw)), s.lastFullDate)
    | none =>
      match c.shortTs with
      | some raw =>
        let st := normalizeSpaces (stripTags raw)
        (some (if strOptTruthy s.lastFullDate then s.lastFullDate.getD "" ++ " " ++ st else st),
         s.lastFullDate)
      | none => (none, s.lastFullDate)

/-- Content resolution of `process_container`: preserve-formatting span, else
content div, else empty; empty content falls back to attachment / image-emoji
placeholders; finally HTML character references are decoded. -/
def resolveContent (c : Container) : String :=
  let contentRaw :=
    match c.innerSpan with
    | some sp => sp
    | none => c.contentDiv.getD ""
  let contentText := pyStrip (stripTags contentRaw)
  let contentText :=
    if contentText.isEmpty then
      if c.hasAttachmentMarker then
        match c.attachmentHref with
        | some href => "[Attachment: " ++ attachmentFilename href ++ "]"
        | none => "[Attachment]"
      else
        match c.imgAlt with
        | some alt => "[Image/Emoji: " ++ pyStrip alt ++ "]"
        | none => contentText
    else contentText
  htmlUnescape contentText

/-- Record construction of `process_container` for a container whose id
parsed as `mid`, returning the updated scan state and the record. -/
def extractRecord (s : ScanState) (c : Container) (mid : String) : ScanState × MessageRecord :=
  let s1 := updateAuthorState s c
  let authorId := pyOrOpt s1.prevAuthorId ""
  let authorName := pyOrOpt s1.prevAuthorName "Unknown"
  let ts := (resolveTimestamp s1 c).1
  let s2 := { s1 with lastFullDate := (resolveTimestamp s1 c).2 }
  (s2,
   { user_id := authorId
     username := authorName
     color := s1.prevAuthorColor
     content := resolveContent c
     timestamp := pyOrOpt ts "UNKNOWN_TIMESTAMP"
     reply_to_msg_id := c.replyMsgId
     message_id := mid })

/-- Source `process_container`: skip the container when its id is missing
(state untouched), otherwise extract the record and insert it into the store,
overwriting any record already stored under the same id. -/
def processContainer (s : ScanState) (store : Store) (c : Container) : ScanState × Store :=
  match c.msgId with
  | none => (s, store)
  | some mid =>
    if mid.isEmpty then (s, store)
    else
      ((extractRecord s c mid).1, storeInsert store mid (extractRecord s c mid).2)

/-- Pass 1 over a sequence of containers (the scanner feeds every container
of every flushed group, in document order, through `process_container`). -/
def scanContainers (s : ScanState) (store : Store) : List Container → ScanState × Store
  | [] => (s, store)
  | c :: rest =>
    scanContainers (processContainer s store c).1 (processContainer s store c).2 rest

/-! ### Pass 2: filtering, reply chains, per-user bundles -/

/-- Filter configuration as stored on the extractor after `__init__`
(`search_term` is already lowercased there and `""` becomes `None`). -/
structure Config where
  dateFrom : Option String
  dateTo : Option String
  searchTerm : Option String
  excludeReplies : Bool
deriving Repr, DecidableEq

/-- Initialisation of `self.search_term`: `search_term.lower() if search_term
else None`. -/
def initSearchTerm (raw : Option String) : Option String :=
  match raw with
  | some s => if s.isEmpty then none else some (pyLower s)
  | none => none

def noFilters : Config := ⟨none, none, none, false⟩

/-- Source `should_include_message`: reply exclusion, then case-insensitive
search, then the date-range check (skipped entirely when the message
timestamp does not parse). -/
def shouldIncludeMessage (cfg : Config) (msg : MessageRecord) : Bool :=
  if cfg.excludeReplies && strOptTruthy msg.reply_to_msg_id then false
  else if strOptTruthy cfg.searchTerm
      && !containsSub (pyLower msg.content) (cfg.searchTerm.getD "") then false
  else if strOptTruthy cfg.dateFrom || strOptTruthy cfg.dateTo then
    match parseTimestamp msg.timestamp with
    | none => true
    | some dt =>
      let fromViolated :=
        strOptTruthy cfg.dateFrom &&
          (match parseTimestamp (cfg.dateFrom.getD "") with
           | some fromDt => dtLt dt fromDt
           | none => false)
      if fromViolated then false
      else
        let toViolated :=
          strOptTruthy cfg.dateTo &&
            (match parseTimestamp (cfg.dateTo.getD "") with
             | some toDt => dtLt toDt dt
             | none => false)
        if toViolated then false else true
  else true

/-- Loop body of `build_reply_chain_ids`, with the remaining depth budget as
the recursion measure: append the current id while it is truthy, present in
the store, and the depth cap is not reached. -/
def buildChainAux (store : Store) : Option String → Nat → List String
  | _, 0 => []
  | cur?, fuel + 1 =>
    match cur? with
    | none => []
    | some cur =>
      if cur.isEmpty then []
      else
        match storeLookup store cur with
        | none => []
        | some r => cur :: buildChainAux store r.reply_to_msg_id fuel

/-- Source `build_reply_chain_ids(msg_id, max_depth)` (the source's default
depth is 5, which every call site uses). -/
def buildReplyChainIds (store : Store) (msgId : String) (maxDepth : Nat) : List String :=
  buildChainAux store (some msgId) maxDepth

/-- Entry of `user_data[...]['messages']`. -/
structure UserMsg where
  timestamp : String
  content : String
  reply_to_msg_id : Option String
  reply_chain_ids : List String
  message_id : String
deriving Repr, DecidableEq

/-- Per-user bundle `self.user_data[user_id]`. -/
structure UserData where
  username : String
  color : String
  messages : List UserMsg
  replied_to_users : List (String × String × Nat)
  first_timestamp : Option String
  last_timestamp : Option String
deriving Repr, DecidableEq

/-- Loop accumulator of `filter_and_extract_users` for one target user. -/
structure UserAcc where
  messages : List UserMsg
  replied : List (String × String × Nat)
  firstTs : Option String
  lastTs : Option String
  username : Option String
  color : Option String
deriving Repr, DecidableEq

/-- Update of `replied_to_users[reply_user_id]`: insert with count 0 when
absent, then overwrite with the replied message's username and count + 1. -/
def bumpReplied : List (String × String × Nat) → String → String → List (String × String × Nat)
  | [], rid, name => [(rid, name, 1)]
  | (k, kn, c) :: rest, rid, name =>
    if k = rid then (rid, name, c + 1) :: rest else (k, kn, c) :: bumpReplied rest rid name

/-- Body of the per-message loop in `filter_and_extract_users`. -/
def stepUserMsg (store : Store) (cfg : Config) (uid : String) (acc : UserAcc)
    (entry : String × MessageRecord) : UserAcc :=
  let msgId := entry.1
  let msg := entry.2
  if msg.user_id ≠ uid then acc
  else if !shouldIncludeMessage cfg msg then acc
  else
    let acc :=
      if strOptTruthy acc.username then acc
      else { acc with
             username := some msg.username
             color := msg.color
             firstTs := some msg.timestamp }
    let acc := { acc with lastTs := some msg.timestamp }
    let (acc, chainIds) :=
      match msg.reply_to_msg_id with
      | none => (acc, ([] : List String))
      | some rid =>
        if rid.isEmpty then (acc, [])
        else
          match storeLookup store rid with
          | none => (acc, [])
          | some repliedMsg =>
            let acc :=
              if repliedMsg.user_id ≠ uid then
                { acc with replied := bumpReplied acc.replied repliedMsg.user_id repliedMsg.username }
              else acc
            (acc, buildReplyChainIds store rid 5)
    { acc with
      messages := acc.messages ++
        [{ timestamp := msg.timestamp
           content := msg.content
           reply_to_msg_id := msg.reply_to_msg_id
           reply_chain_ids := chainIds
           message_id := msgId }] }

/-- One target user's bundle, built by iterating the whole store in insertion
order; assigned unconditionally into `self.user_data`. -/
def buildUserData (store : Store) (cfg : Config) (uid : String) : UserData :=
  let acc := store.foldl (stepUserMsg store cfg uid) ⟨[], [], none, none, none, none⟩
  { username := pyOrOpt acc.username "Unknown"
    color := pyOrOpt acc.color "N/A"
    messages := acc.messages
    replied_to_users := acc.replied
    first_timestamp := acc.firstTs
    last_timestamp := acc.lastTs }

/-- Source `filter_and_extract_users`: populate `self.user_data` for every
requested target user id. -/
def filterAndExtractUsers (store : Store) (cfg : Config) (targets : List String) :
    List (String × UserData) :=
  targets.foldl (fun ud uid => alInsert ud uid (buildUserData store cfg uid)) []

/-- Outcome of the per-user export loop in `run`: the `user_id not in
self.user_data` branch prints "No data found" and skips the user; otherwise
the user's bundle is exported. -/
inductive RunOutcome where
  | noData
  | exported (bundle : UserData)
deriving Repr, DecidableEq

/-- What `run` does for one requested target user id after the three passes. -/
def runOutcome (store : Store) (cfg : Config) (targets : List String) (uid : String) :
    RunOutcome :=
  match alLookup (filterAndExtractUsers store cfg targets) uid with
  | none => RunOutcome.noData
  | some d => RunOutcome.exported d

/-! ### Pass 3: statistics (`calculate_statistics`) -/

/-- Statistics record `self.statistics[user_id]`; the two averages are exact
rationals standing for the Python float divisions. -/
structure Stats where
  total_messages : Nat
  original_messages : Nat
  replies : Nat
  total_words : Nat
  avg_message_length : ℚ
  most_active_hour : Option (Nat × Nat)
  most_active_day : Option (String × Nat)
  avg_reply_depth : ℚ
  hour_distribution : List (Nat × Nat)
  day_distribution : List (String × Nat)
deriving Repr, DecidableEq

/-- Counter update: dicts keep the first-insertion position of a key. -/
def bumpTally {α : Type} [DecidableEq α] : List (α × Nat) → α → List (α × Nat)
  | [], a => [(a, 1)]
  | (k, c) :: rest, a => if k = a then (k, c + 1) :: rest else (k, c) :: bumpTally rest a

/-- Python `collections.Counter` over a list, in first-encounter order. -/
def tally {α : Type} [DecidableEq α] (l : List α) : List (α × Nat) :=
  l.foldl bumpTally []

/-- Python `Counter.most_common(1)`: highest count, ties broken by
first-encounter order (`sorted` is stable). -/
def mostCommon1 {α : Type} (l : List (α × Nat)) : Option (α × Nat) :=
  l.foldl
    (fun best kv =>
      match best with
      | none => some kv
      | some b => if kv.2 > b.2 then some kv else best)
    none

/-- Contents of a user's included messages, looked up unguarded in
`self.all_messages` (a missing id would raise `KeyError`, hence `Option`). -/
def lookupContents (store : Store) (msgs : List UserMsg) : Option (List String) :=
  msgs.mapM fun m => (storeLookup store m.message_id).map (·.content)

/-- Statistics body of `calculate_statistics` for one user with a nonempty
message list; `none` models the `KeyError` crash on a content lookup that
cannot happen for bundles built from the same store. -/
def statsFor (store : Store) (msgs : List UserMsg) : Option Stats :=
  (lookupContents store msgs).map fun contents =>
    let totalMessages := msgs.length
    let replyCount := (msgs.filter fun m => strOptTruthy m.reply_to_msg_id).length
    let allText := joinSpace (contents.filter fun c => !pyStartsWith c "[")
    let totalWords := (pySplit allText).length
    let avgLength : ℚ :=
      if totalMessages > 0 then (totalWords : ℚ) / (totalMessages : ℚ) else 0
    let parsed := msgs.filterMap fun m => parseTimestamp m.timestamp
    let hourDist := tally (parsed.map (·.hour))
    let dayDist := tally (parsed.map weekdayName)
    let replyDepths := (msgs.filter fun m => !m.reply_chain_ids.isEmpty).map
      fun m => m.reply_chain_ids.length
    let avgReplyDepth : ℚ :=
      if replyDepths.isEmpty then 0
      else ((replyDepths.foldl (· + ·) 0 : Nat) : ℚ) / (replyDepths.length : ℚ)
    { total_messages := totalMessages
      original_messages := totalMessages - replyCount
      replies := replyCount
      total_words := totalWords
      avg_message_length := avgLength
      most_active_hour := mostCommon1 hourDist
      most_active_day := mostCommon1 dayDist
      avg_reply_depth := avgReplyDepth
      hour_distribution := hourDist
      day_distribution := dayDist }

/-- Per-user entry point of `calculate_statistics`: users with an empty
message list are skipped (`if not messages: continue`), so they get no
statistics entry. -/
def calcUserStats (store : Store) (msgs : List UserMsg) : Option Stats :=
  if msgs.isEmpty then none else statsFor store msgs

/-! ### Helper lemmas -/

theorem alLookup_alInsert_self {α : Type} (l : List (String × α)) (k : String) (v : α) :
    alLookup (alInsert l k v) k = some v := by
  induction l with
  | nil => simp [alInsert, alLookup]
  | cons p rest ih =>
    obtain ⟨k', v'⟩ := p
    by_cases h : k' = k
    · simp [alInsert, alLookup, h]
    · simp only [alInsert, alLookup, if_neg h]
      simpa [alLookup, h] using ih

theorem alLookup_alInsert_isSome {α : Type} (l : List (String × α)) (k u : String) (v : α)
    (h : (alLookup l u).isSome) : (alLookup (alInsert l k v) u).isSome := by
  induction l with
  | nil => simp [alLookup] at h
  | cons p rest ih =>
    obtain ⟨k', v'⟩ := p
    by_cases hk : k' = k
    · subst hk
      by_cases hu : k' = u
      · simp [alInsert, alLookup, hu]
      · simp only [alLookup, if_neg hu] at h
        simp [alInsert, alLookup, hu, h]
    · by_cases hu : k' = u
      · subst hu
        simp [alInsert, alLookup, hk]
      · simp only [alLookup, if_neg hu] at h
        simp only [alInsert, alLookup, if_neg hk, if_neg hu]
        exact ih h

theorem buildChainAux_length_le (store : Store) :
    ∀ (fuel : Nat) (cur : Option String), (buildChainAux store cur fuel).length ≤ fuel := by
  intro fuel
  induction fuel with
  | zero => intro cur; simp [buildChainAux]
  | succ n ih =>
    intro cur
    cases cur with
    | none => simp [buildChainAux]
    | some c =>
      simp only [buildChainAux]
      by_cases hc : c.isEmpty
      · simp [hc]
      · simp only [hc]
        cases h : storeLookup store c with
        | none => simp
        | some r =>
          simp only [List.length_cons]
          exact Nat.succ_le_succ (ih r.reply_to_msg_id)

theorem buildChainAux_mem_isSome (store : Store) :
    ∀ (fuel : Nat) (cur : Option String) (i : String),
      i ∈ buildChainAux store cur fuel → (storeLookup store i).isSome := by
  intro fuel
  induction fuel with
  | zero => intro cur i h; simp [buildChainAux] at h
  | succ n ih =>
    intro cur i h
    cases cur with
    | none => simp [buildChainAux] at h
    | some c =>
      simp only [buildChainAux] at h
      by_cases hc : c.isEmpty
      · simp [hc] at h
      · simp only [hc] at h
        cases hl : storeLookup store c with
        | none => rw [hl] at h; simp at h
        | some r =>
          rw [hl] at h
          rcases List.mem_cons.mp h with h1 | h2
          · subst h1; simp [hl]
          · exact ih r.reply_to_msg_id i h2

/-! ### Claim theorems -/

/-- C2: for every store and start id the reply-chain resolver with depth cap
`maxDepth` returns at most `maxDepth` ids (so it terminates even on cyclic
reply graphs), and on a synthetic two-cycle `A → B → A` with both messages
present, `chain(A)` with the source's cap 5 returns exactly the five entries
`[A, B, A, B, A]`. -/
theorem c2_reply_chain_depth_capped :
    (∀ (store : Store) (startId : String) (maxDepth : Nat),
        (buildReplyChainIds store startId maxDepth).length ≤ maxDepth) ∧
    (∀ (store : Store) (A B : String) (rA rB : MessageRecord),
        A.isEmpty = false → B.isEmpty = false →
        storeLookup store A = some rA → rA.reply_to_msg_id = some B →
        storeLookup store B = some rB → rB.reply_to_msg_id = some A →
        buildReplyChainIds store A 5 = [A, B, A, B, A] ∧
        (buildReplyChainIds store A 5).length = 5) := by
  constructor
  · intro store startId maxDepth
    exact buildChainAux_length_le store maxDepth (some startId)
  · intro store A B rA rB hA hB hlA hrA hlB hrB
    have : buildReplyChainIds store A 5 = [A, B, A, B, A] := by
      simp [buildReplyChainIds, buildChainAux, hA, hB, hlA, hrA, hlB, hrB]
    exact ⟨this, by rw [this]; rfl⟩

/-- Witness for C2 at a concrete two-cycle store. -/
theorem c2_reply_chain_depth_capped_witness :
    buildReplyChainIds
        [("A", ⟨"u1", "Alice", none, "hi", "UNKNOWN_TIMESTAMP", some "B", "A"⟩),
         ("B", ⟨"u2", "Bob", none, "yo", "UNKNOWN_TIMESTAMP", some "A", "B"⟩)] "A" 5
      = ["A", "B", "A", "B", "A"] :=
  (c2_reply_chain_depth_capped.2
    [("A", ⟨"u1", "Alice", none, "hi", "UNKNOWN_TIMESTAMP", some "B", "A"⟩),
     ("B", ⟨"u2", "Bob", none, "yo", "UNKNOWN_TIMESTAMP", some "A", "B"⟩)]
    "A" "B"
    ⟨"u1", "Alice", none, "hi", "UNKNOWN_TIMESTAMP", some "B", "A"⟩
    ⟨"u2", "Bob", none, "yo", "UNKNOWN_TIMESTAMP", some "A", "B"⟩
    (by decide) (by decide) (by decide) (by decide) (by decide) (by decide)).1

/-- C10: every id appearing in a list returned by the reply-chain resolver is
a key present in the message store, so the unguarded store lookups the
exporters perform on chain ids all succeed. -/
theorem c10_chain_ids_present_in_store :
    ∀ (store : Store) (startId : String) (maxDepth : Nat) (i : String),
      i ∈ buildReplyChainIds store startId maxDepth → (storeLookup store i).isSome :=
  fun store startId maxDepth i h =>
    buildChainAux_mem_isSome store maxDepth (some startId) i h

/-- Witness for C10: on a concrete two-entry chain, the chain id "B" is
returned and its unguarded lookup succeeds. -/
theorem c10_chain_ids_present_in_store_witness :
    (storeLookup
        [("A", ⟨"u1", "Alice", none, "hi", "UNKNOWN_TIMESTAMP", some "B", "A"⟩),
         ("B", ⟨"u2", "Bob", none, "yo", "UNKNOWN_TIMESTAMP", none, "B"⟩)] "B").isSome :=
  c10_chain_ids_present_in_store
    [("A", ⟨"u1", "Alice", none, "hi", "UNKNOWN_TIMESTAMP", some "B", "A"⟩),
     ("B", ⟨"u2", "Bob", none, "yo", "UNKNOWN_TIMESTAMP", none, "B"⟩)]
    "A" 5 "B" (by decide)

/-- C6: a message whose stored timestamp parses under none of the accepted
formats is never excluded by the date-range check — filtering it behaves
exactly as if no date bounds were configured (and the predicate is total, so
an unparseable timestamp is never fatal). -/
theorem c6_unparseable_timestamp_passes_date_filter :
    ∀ (cfg : Config) (msg : MessageRecord),
      parseTimestamp msg.timestamp = none →
      shouldIncludeMessage cfg msg
        = shouldIncludeMessage ⟨none, none, cfg.searchTerm, cfg.excludeReplies⟩ msg := by
  intro cfg msg h
  simp only [shouldIncludeMessage, h, strOptTruthy]
  split
  · rfl
  · split
    · rfl
    · split <;> rfl

/-- Witness for C6: a sentinel timestamp with a date filter configured. -/
theorem c6_unparseable_timestamp_passes_date_filter_witness :
    shouldIncludeMessage ⟨some "01/01/2024 12:00 AM", none, none, false⟩
        ⟨"u1", "Alice", none, "x", "UNKNOWN_TIMESTAMP", none, "1"⟩
      = shouldIncludeMessage ⟨none, none, none, false⟩
        ⟨"u1", "Alice", none, "x", "UNKNOWN_TIMESTAMP", none, "1"⟩ :=
  c6_unparseable_timestamp_passes_date_filter
    ⟨some "01/01/2024 12:00 AM", none, none, false⟩
    ⟨"u1", "Alice", none, "x", "UNKNOWN_TIMESTAMP", none, "1"⟩
    (by decide)

/-- C7 evaluation: the claim's own concrete scenario fails on the code. The
bound "01/01/2024" (the CLI-documented MM/DD/YYYY form) parses under none of
`timestamp_formats` — all three require a time component — so `from_dt` is
`None`, the lower-bound check is skipped, and the message timestamped
"12/31/2023 11:00 PM" (itself parseable, hence in principle excludable) is
included, contradicting the claimed exclusion; with a fully specified bound
"01/01/2024 12:00 AM" the same message is excluded and a message exactly at
the bound is included. -/
theorem c7_date_only_bound_is_ignored :
    parseTimestamp "01/01/2024" = none ∧
    parseTimestamp "12/31/2023 11:00 PM" = some ⟨2023, 12, 31, 23, 0, 0⟩ ∧
    shouldIncludeMessage ⟨some "01/01/2024", none, none, false⟩
        ⟨"u1", "Alice", none, "x", "12/31/2023 11:00 PM", none, "1"⟩ = true ∧
    shouldIncludeMessage ⟨some "01/01/2024 12:00 AM", none, none, false⟩
        ⟨"u1", "Alice", none, "x", "12/31/2023 11:00 PM", none, "1"⟩ = false ∧
    shouldIncludeMessage ⟨some "01/01/2024 12:00 AM", none, none, false⟩
        ⟨"u1", "Alice", none, "x", "01/01/2024 12:00 AM", none, "2"⟩ = true := by
  refine ⟨by decide, by decide, by decide, by decide, by decide⟩

/-- C1 evaluation: `filter_and_extract_users` assigns `self.user_data[uid]`
unconditionally for every requested target user id, so the `uid not in
self.user_data` "No data found" branch of `run` is unreachable: every
requested id — including one with zero included messages — is reported as an
exported `UserBundle`, a zero-message bundle being indistinguishable from a
filtered-to-zero one. -/
theorem c1_no_data_outcome_unreachable :
    (∀ (store : Store) (cfg : Config) (targets : List String) (uid : String),
        uid ∈ targets → runOutcome store cfg targets uid ≠ RunOutcome.noData) ∧
    runOutcome [] noFilters ["999"] "999"
      = RunOutcome.exported ⟨"Unknown", "N/A", [], [], none, none⟩ := by
  constructor
  · intro store cfg targets uid hmem
    have key : ∀ (l : List String) (acc : List (String × UserData)),
        uid ∈ l ∨ (alLookup acc uid).isSome →
        (alLookup (l.foldl (fun ud u => alInsert ud u (buildUserData store cfg u)) acc) uid).isSome := by
      intro l
      induction l with
      | nil =>
        intro acc h
        rcases h with h | h
        · simp at h
        · simpa using h
      | cons u rest ih =>
        intro acc h
        simp only [List.foldl_cons]
        rcases h with h | h
        · rcases List.mem_cons.mp h with h1 | h2
          · subst h1
            exact ih _ (Or.inr (by simp [alLookup_alInsert_self]))
          · exact ih _ (Or.inl h2)
        · exact ih _ (Or.inr (alLookup_alInsert_isSome _ _ _ _ h))
    have hsome := key targets [] (Or.inl hmem)
    unfold runOutcome filterAndExtractUsers
    intro hcontra
    rcases hlk : alLookup (targets.foldl (fun ud u => alInsert ud u (buildUserData store cfg u)) []) uid with _ | d
    · rw [hlk] at hsome; simp at hsome
    · rw [hlk] at hcontra; simp at hcontra
  · decide

/-- Witness for C1 at a concrete zero-message target user. -/
theorem c1_no_data_outcome_unreachable_witness :
    runOutcome [] noFilters ["999"] "999" ≠ RunOutcome.noData :=
  c1_no_data_outcome_unreachable.1 [] noFilters ["999"] "999" (by decide)

theorem updateAuthorState_none (s : ScanState) (c : Container) (h : c.author = none) :
    updateAuthorState s c = s := by
  simp [updateAuthorState, h]

theorem updateAuthorState_lastFullDate (s : ScanState) (c : Container) :
    (updateAuthorState s c).lastFullDate = s.lastFullDate := by
  unfold updateAuthorState
  cases c.author with
  | none => rfl
  | some p => obtain ⟨aid, nm⟩ := p; rfl

theorem extractRecord_user_id (s : ScanState) (c : Container) (i : String) :
    (extractRecord s c i).2.user_id = pyOrOpt (updateAuthorState s c).prevAuthorId "" := rfl

theorem extractRecord_username (s : ScanState) (c : Container) (i : String) :
    (extractRecord s c i).2.username = pyOrOpt (updateAuthorState s c).prevAuthorName "Unknown" := rfl

theorem extractRecord_message_id (s : ScanState) (c : Container) (i : String) :
    (extractRecord s c i).2.message_id = i := rfl

theorem extractRecord_state_prevAuthorId (s : ScanState) (c : Container) (i : String) :
    (extractRecord s c i).1.prevAuthorId = (updateAuthorState s c).prevAuthorId := rfl

theorem extractRecord_state_prevAuthorName (s : ScanState) (c : Container) (i : String) :
    (extractRecord s c i).1.prevAuthorName = (updateAuthorState s c).prevAuthorName := rfl

theorem extractRecord_timestamp (s : ScanState) (c : Container) (i : String) :
    (extractRecord s c i).2.timestamp
      = pyOrOpt (resolveTimestamp (updateAuthorState s c) c).1 "UNKNOWN_TIMESTAMP" := rfl

/-- C3: when only the first of three consecutive containers carries an
explicit author marker, all three extracted records have identical
`authorId` / `authorName` (the second and third inherit the scan state
unchanged); and a container processed before any author marker has ever been
seen yields the empty-string author id and the name "Unknown". -/
theorem c3_author_inheritance :
    (∀ (s0 : ScanState) (c1 c2 c3 : Container) (i1 i2 i3 aid nm : String),
        c1.author = some (aid, nm) → c2.author = none → c3.author = none →
        ((extractRecord s0 c1 i1).2.user_id
            = (extractRecord (extractRecord s0 c1 i1).1 c2 i2).2.user_id ∧
         (extractRecord (extractRecord s0 c1 i1).1 c2 i2).2.user_id
            = (extractRecord (extractRecord (extractRecord s0 c1 i1).1 c2 i2).1 c3 i3).2.user_id) ∧
        ((extractRecord s0 c1 i1).2.username
            = (extractRecord (extractRecord s0 c1 i1).1 c2 i2).2.username ∧
         (extractRecord (extractRecord s0 c1 i1).1 c2 i2).2.username
            = (extractRecord (extractRecord (extractRecord s0 c1 i1).1 c2 i2).1 c3 i3).2.username)) ∧
    (∀ (s : ScanState) (c : Container) (i : String),
        s.prevAuthorId = none → s.prevAuthorName = none → c.author = none →
        (extractRecord s c i).2.user_id = "" ∧ (extractRecord s c i).2.username = "Unknown") := by
  constructor
  · intro s0 c1 c2 c3 i1 i2 i3 aid nm h1 h2 h3
    have e2 := updateAuthorState_none (extractRecord s0 c1 i1).1 c2 h2
    have e3 := updateAuthorState_none (extractRecord (extractRecord s0 c1 i1).1 c2 i2).1 c3 h3
    refine ⟨⟨?_, ?_⟩, ⟨?_, ?_⟩⟩
    · simp only [extractRecord_user_id, extractRecord_state_prevAuthorId, e2]
    · simp only [extractRecord_user_id, extractRecord_state_prevAuthorId, e2, e3]
    · simp only [extractRecord_username, extractRecord_state_prevAuthorName, e2]
    · simp only [extractRecord_username, extractRecord_state_prevAuthorName, e2, e3]
  · intro s c i hid hname h
    rw [extractRecord_user_id, extractRecord_username, updateAuthorState_none s c h, hid, hname]
    exact ⟨rfl, rfl⟩

/-- Witness for C3 on concrete containers: the first carries the marker
`data-user-id=42` with name "Alice", the next two carry none. -/
theorem c3_author_inheritance_witness :
    ((extractRecord initialScanState
        ⟨some "10", none, some ("42", "Alice"), some "#fff", none, none, none, some "hey", none,
          false, none, none⟩ "10").2.user_id
      = (extractRecord
          (extractRecord initialScanState
            ⟨some "10", none, some ("42", "Alice"), some "#fff", none, none, none, some "hey",
              none, false, none, none⟩ "10").1
          ⟨some "11", none, none, none, none, none, none, some "again", none, false, none, none⟩
          "11").2.user_id) ∧
    ((extractRecord initialScanState
        ⟨some "20", none, none, none, none, none, none, some "x", none, false, none, none⟩
        "20").2.user_id = "" ∧
     (extractRecord initialScanState
        ⟨some "20", none, none, none, none, none, none, some "x", none, false, none, none⟩
        "20").2.username = "Unknown") :=
  ⟨((c3_author_inheritance.1 initialScanState
      ⟨some "10", none, some ("42", "Alice"), some "#fff", none, none, none, some "hey", none,
        false, none, none⟩
      ⟨some "11", none, none, none, none, none, none, some "again", none, false, none, none⟩
      ⟨some "12", none, none, none, none, none, none, some "more", none, false, none, none⟩
      "10" "11" "12" "42" "Alice" rfl rfl rfl).1).1,
   c3_author_inheritance.2 initialScanState
      ⟨some "20", none, none, none, none, none, none, some "x", none, false, none, none⟩
      "20" rfl rfl rfl⟩

theorem isEmpty_append_left (d x : String) (h : d.isEmpty = false) :
    (d ++ x).isEmpty = false := by
  by_contra hc
  rw [Bool.not_eq_false] at hc
  have hdx : d ++ x = "" := (String.isEmpty_iff _).mp hc
  have hdata : d.data ++ x.data = ([] : List Char) := congrArg String.data hdx
  have hd : d.data = [] := (List.append_eq_nil.mp hdata).1
  have : d = "" := by
    cases d with
    | mk l => simp_all
  rw [this] at h
  exact absurd h (by decide)

/-- C4 (amended): a container matching only the short (time-only) timestamp
marker stores `"<lastDate> <shortTime>"` when a full date has been seen; when
no full date has been seen, the normalized short time is stored bare provided
it is nonempty (an empty short time falls back to the sentinel, see the
counterexample). -/
theorem c4_short_timestamp_completion :
    (∀ (s : ScanState) (c : Container) (i raw d : String),
        c.fullTs = none → c.titleTs = none → c.shortTs = some raw →
        s.lastFullDate = some d → d.isEmpty = false →
        (extractRecord s c i).2.timestamp = d ++ " " ++ normalizeSpaces (stripTags raw)) ∧
    (∀ (s : ScanState) (c : Container) (i raw : String),
        c.fullTs = none → c.titleTs = none → c.shortTs = some raw →
        strOptTruthy s.lastFullDate = false →
        (normalizeSpaces (stripTags raw)).isEmpty = false →
        (extractRecord s c i).2.timestamp = normalizeSpaces (stripTags raw)) := by
  constructor
  · intro s c i raw d hfull htitle hshort hdate hne
    rw [extractRecord_timestamp]
    have hlast : (updateAuthorState s c).lastFullDate = some d := by
      rw [updateAuthorState_lastFullDate, hdate]
    have htr : strOptTruthy (some d) = true := by simp [strOptTruthy, hne]
    have hv : ((d ++ " ") ++ normalizeSpaces (stripTags raw)).isEmpty = false :=
      isEmpty_append_left _ _ (isEmpty_append_left _ _ hne)
    simp only [resolveTimestamp, hfull, htitle, hshort, hlast, htr, if_true, Option.getD_some]
    simp [pyOrOpt, hv]
  · intro s c i raw hfull htitle hshort hdate hne
    rw [extractRecord_timestamp]
    have hlast : strOptTruthy (updateAuthorState s c).lastFullDate = false := by
      rw [updateAuthorState_lastFullDate]; exact hdate
    simp only [resolveTimestamp, hfull, htitle, hshort, hlast, Bool.false_eq_true, if_false]
    simp [pyOrOpt, hne]

/-- Witness for C4: a known date "01/02/2024" completes the short time
"1:05 PM", and with no known date a nonempty short time is stored bare. -/
theorem c4_short_timestamp_completion_witness :
    (extractRecord ⟨some "01/02/2024", none, none, none⟩
        ⟨some "11", none, none, none, none, none, some "1:05 PM", none, none, false, none, none⟩
        "11").2.timestamp = "01/02/2024" ++ " " ++ normalizeSpaces (stripTags "1:05 PM") ∧
    (extractRecord initialScanState
        ⟨some "11", none, none, none, none, none, some "1:05 PM", none, none, false, none, none⟩
        "11").2.timestamp = normalizeSpaces (stripTags "1:05 PM") :=
  ⟨c4_short_timestamp_completion.1 ⟨some "01/02/2024", none, none, none⟩
      ⟨some "11", none, none, none, none, none, some "1:05 PM", none, none, false, none, none⟩
      "11" "1:05 PM" "01/02/2024" rfl rfl rfl rfl (by decide),
   c4_short_timestamp_completion.2 initialScanState
      ⟨some "11", none, none, none, none, none, some "1:05 PM", none, none, false, none, none⟩
      "11" "1:05 PM" rfl rfl rfl (by decide) (by decide)⟩

/-- Counterexample to C4 as stated: a container whose short-timestamp capture
normalizes to the empty string, scanned before any full date, does not store
the bare short time `""` — the falsy timestamp falls back to the sentinel
"UNKNOWN_TIMESTAMP". -/
theorem c4_empty_short_time_counterexample :
    (extractRecord initialScanState
        ⟨some "20", none, none, none, none, none, some "", none, none, false, none, none⟩
        "20").2.timestamp = "UNKNOWN_TIMESTAMP" ∧
    ("UNKNOWN_TIMESTAMP" : String) ≠ "" := by
  exact ⟨by decide, by decide⟩

theorem alLookup_alInsert {α : Type} (l : List (String × α)) (k u : String) (v : α) :
    alLookup (alInsert l k v) u = if u = k then some v else alLookup l u := by
  induction l with
  | nil =>
    by_cases h : u = k
    · simp [alInsert, alLookup, h]
    · simp [alInsert, alLookup, h, Ne.symm h]
  | cons p rest ih =>
    obtain ⟨k', v'⟩ := p
    by_cases hk : k' = k
    · subst hk
      by_cases hu : u = k'
      · subst hu; simp [alInsert, alLookup]
      · simp [alInsert, alLookup, hu, Ne.symm hu]
    · by_cases hu : u = k'
      · subst hu
        simp [alInsert, alLookup, hk, Ne.symm hk]
      · simp only [alInsert, if_neg hk, alLookup, if_neg (Ne.symm hu)]
        exact ih

theorem scanContainers_append (cs cs' : List Container) :
    ∀ (s : ScanState) (store : Store),
      scanContainers s store (cs ++ cs')
        = scanContainers (scanContainers s store cs).1 (scanContainers s store cs).2 cs' := by
  induction cs with
  | nil => intro s store; rfl
  | cons c rest ih =>
    intro s store
    simp only [List.cons_append, scanContainers]
    exact ih _ _

theorem processContainer_lookup_self (s : ScanState) (store : Store) (c : Container)
    (k : String) (h1 : c.msgId = some k) (h2 : k.isEmpty = false) :
    storeLookup (processContainer s store c).2 k = some (extractRecord s c k).2 := by
  simp only [processContainer, h1, h2, Bool.false_eq_true, if_false]
  exact alLookup_alInsert_self store k _

theorem processContainer_id_invariant (s : ScanState) (store : Store) (c : Container)
    (h : ∀ (k : String) (r : MessageRecord), storeLookup store k = some r → r.message_id = k) :
    ∀ (k : String) (r : MessageRecord),
      storeLookup (processContainer s store c).2 k = some r → r.message_id = k := by
  intro k r hk
  rw [processContainer] at hk
  cases hm : c.msgId with
  | none =>
    simp only [hm] at hk
    exact h k r hk
  | some mid =>
    simp only [hm] at hk
    by_cases he : mid.isEmpty = true
    · rw [if_pos he] at hk
      exact h k r hk
    · rw [if_neg he] at hk
      simp only [storeLookup, storeInsert] at hk
      rw [alLookup_alInsert] at hk
      by_cases hkm : k = mid
      · rw [if_pos hkm] at hk
        injection hk with hk
        rw [← hk, extractRecord_message_id]
        exact hkm.symm
      · rw [if_neg hkm] at hk
        exact h k r hk

theorem scanContainers_id_invariant (cs : List Container) :
    ∀ (s : ScanState) (store : Store),
      (∀ (k : String) (r : MessageRecord), storeLookup store k = some r → r.message_id = k) →
      ∀ (k : String) (r : MessageRecord),
        storeLookup (scanContainers s store cs).2 k = some r → r.message_id = k := by
  induction cs with
  | nil => intro s store h; exact h
  | cons c rest ih =>
    intro s store h
    simp only [scanContainers]
    exact ih _ _ (processContainer_id_invariant s store c h)

/-- C8: the scan populates a single id-keyed mapping; when a later container
carries the same parsed id as an earlier one, the record found in the store
after the scan is the one extracted from the later container (last write
wins), and every stored record's id field equals its key and is never changed
by any insertion (records are stored immutably with `message_id = key`). -/
theorem c8_last_write_wins :
    ∀ (s : ScanState) (cs : List Container) (c : Container) (k : String),
      c.msgId = some k → k.isEmpty = false →
      (storeLookup (scanContainers s [] (cs ++ [c])).2 k
          = some (extractRecord (scanContainers s [] cs).1 c k).2) ∧
      (∀ (k' : String) (r : MessageRecord),
          storeLookup (scanContainers s [] (cs ++ [c])).2 k' = some r → r.message_id = k') := by
  intro s cs c k h1 h2
  constructor
  · rw [scanContainers_append]
    show storeLookup (scanContainers _ _ [c]).2 k = _
    simp only [scanContainers]
    exact processContainer_lookup_self _ _ c k h1 h2
  · exact scanContainers_id_invariant (cs ++ [c]) s []
      (by intro k' r hr; simp [storeLookup, alLookup] at hr)

/-- Witness for C8: two containers carrying the same id "7"; after the scan
the stored record is the one extracted from the later container (content
"second"), and its id field equals the key. -/
theorem c8_last_write_wins_witness :
    storeLookup
        (scanContainers initialScanState []
          [⟨some "7", none, none, none, none, none, none, some "first", none, false, none, none⟩,
           ⟨some "7", none, none, none, none, none, none, some "second", none, false, none, none⟩]).2
        "7"
      = some (extractRecord
          (scanContainers initialScanState []
            [⟨some "7", none, none, none, none, none, none, some "first", none, false, none,
              none⟩]).1
          ⟨some "7", none, none, none, none, none, none, some "second", none, false, none, none⟩
          "7").2 :=
  (c8_last_write_wins initialScanState
    [⟨some "7", none, none, none, none, none, none, some "first", none, false, none, none⟩]
    ⟨some "7", none, none, none, none, none, none, some "second", none, false, none, none⟩
    "7" rfl (by decide)).1

/-- Number of whitespace-separated words of a string, as `len(s.split())`. -/
def wordCount (s : String) : Nat := (pySplit s).length

/-- State of the word counter after consuming a character list. -/
def finState : Bool → List Char → Bool
  | b, [] => b
  | _, c :: rest => finState (!isPyWs c) rest

theorem splitWsAux_length : ∀ (cs acc : List Char),
    (splitWsAux cs acc).length
      = countWordsAux (!acc.isEmpty) cs + (if acc.isEmpty then 0 else 1) := by
  intro cs
  induction cs with
  | nil =>
    intro acc
    cases acc <;> simp [splitWsAux, countWordsAux]
  | cons c rest ih =>
    intro acc
    by_cases hc : isPyWs c
    · cases acc with
      | nil =>
        have h1 := ih []
        simp [splitWsAux, hc, countWordsAux] at h1 ⊢
        omega
      | cons a as =>
        have h1 := ih []
        simp [splitWsAux, hc, countWordsAux] at h1 ⊢
        omega
    · cases acc with
      | nil =>
        have h1 := ih [c]
        simp [splitWsAux, hc, countWordsAux] at h1 ⊢
        omega
      | cons a as =>
        have h1 := ih (c :: a :: as)
        simp [splitWsAux, hc, countWordsAux] at h1 ⊢
        omega

theorem wordCount_eq_countWordsAux (s : String) :
    wordCount s = countWordsAux false s.data := by
  unfold wordCount pySplit
  rw [List.length_map, splitWsAux_length s.data []]
  simp

theorem countWordsAux_append : ∀ (xs : List Char) (b : Bool) (ys : List Char),
    countWordsAux b (xs ++ ys) = countWordsAux b xs + countWordsAux (finState b xs) ys := by
  intro xs
  induction xs with
  | nil => intro b ys; simp [countWordsAux, finState]
  | cons c rest ih =>
    intro b ys
    by_cases hc : isPyWs c
    · simp only [List.cons_append, countWordsAux, hc, if_true, finState, Bool.not_true]
      exact ih false ys
    · simp only [List.cons_append, countWordsAux, hc, if_false, Bool.false_eq_true, finState,
        Bool.not_false]
      have h := ih true ys
      have hb : countWordsAux true (List.append rest ys) = countWordsAux true (rest ++ ys) := rfl
      omega

theorem wordCount_joinSpace : ∀ (xs : List String),
    wordCount (joinSpace xs) = (xs.map wordCount).sum := by
  intro xs
  induction xs with
  | nil => rfl
  | cons x rest ih =>
    cases rest with
    | nil => simp [joinSpace]
    | cons y rest2 =>
      have hdata : (x ++ " " ++ joinSpace (y :: rest2)).data
          = x.data ++ (' ' :: (joinSpace (y :: rest2)).data) := by
        show (x.data ++ " ".data) ++ (joinSpace (y :: rest2)).data = _
        rw [List.append_assoc]
        rfl
      rw [joinSpace, wordCount_eq_countWordsAux, hdata, countWordsAux_append]
      have hsp : ∀ (b : Bool) (ys : List Char),
          countWordsAux b (' ' :: ys) = countWordsAux false ys := by
        intro b ys
        simp [countWordsAux, isPyWs]
      rw [hsp, ← wordCount_eq_countWordsAux, ← wordCount_eq_countWordsAux, ih]
      simp

/-- C5: for a user's included message set, `total_words` is the word sum over
only the messages whose stored content does not start with "[" (placeholders
are excluded from the word count), while `avg_message_length` divides that
word sum by the total included message count. -/
theorem c5_word_stats :
    ∀ (store : Store) (msgs : List UserMsg) (contents : List String),
      lookupContents store msgs = some contents → msgs ≠ [] →
      (calcUserStats store msgs).map (fun st => (st.total_words, st.avg_message_length))
        = some ((((contents.filter fun c => !pyStartsWith c "[").map wordCount).sum,
            ((((contents.filter fun c => !pyStartsWith c "[").map wordCount).sum : ℚ)
              / (msgs.length : ℚ)))) := by
  intro store msgs contents hlc hne
  have hemp : msgs.isEmpty = false := by
    cases msgs with
    | nil => exact absurd rfl hne
    | cons a as => rfl
  unfold calcUserStats
  rw [hemp]
  simp only [Bool.false_eq_true, if_false]
  unfold statsFor
  rw [hlc]
  simp only [Option.map_some']
  have hwords : (pySplit (joinSpace (contents.filter fun c => !pyStartsWith c "["))).length
      = ((contents.filter fun c => !pyStartsWith c "[").map wordCount).sum := by
    rw [show ∀ (s : String), (pySplit s).length = wordCount s from fun _ => rfl,
      wordCount_joinSpace]
  have hpos : msgs.length > 0 := by
    cases msgs with
    | nil => exact absurd rfl hne
    | cons a as => simp
  simp only [hwords, hpos, if_pos]

/-- Witness for C5 on the spec's concrete scenario: contents "hello world"
and "[Attachment: a.png]" give `total_words = 2` and
`avg_message_length = 1`. -/
theorem c5_word_stats_witness :
    (calcUserStats
        [("1", ⟨"u1", "Alice", none, "hello world", "UNKNOWN_TIMESTAMP", none, "1"⟩),
         ("2", ⟨"u1", "Alice", none, "[Attachment: a.png]", "UNKNOWN_TIMESTAMP", none, "2"⟩)]
        [⟨"UNKNOWN_TIMESTAMP", "hello world", none, [], "1"⟩,
         ⟨"UNKNOWN_TIMESTAMP", "[Attachment: a.png]", none, [], "2"⟩]).map
      (fun st => (st.total_words, st.avg_message_length)) = some ((2, (1 : ℚ))) := by
  have h := c5_word_stats
    [("1", ⟨"u1", "Alice", none, "hello world", "UNKNOWN_TIMESTAMP", none, "1"⟩),
     ("2", ⟨"u1", "Alice", none, "[Attachment: a.png]", "UNKNOWN_TIMESTAMP", none, "2"⟩)]
    [⟨"UNKNOWN_TIMESTAMP", "hello world", none, [], "1"⟩,
     ⟨"UNKNOWN_TIMESTAMP", "[Attachment: a.png]", none, [], "2"⟩]
    ["hello world", "[Attachment: a.png]"]
    (by decide) (by decide)
  rw [h,
    show (List.map wordCount (List.filter (fun c => !pyStartsWith c "[")
      ["hello world", "[Attachment: a.png]"])).sum = 2 from rfl]
  norm_num

/-- C9: the word-count exclusion is triggered by any stored content beginning
with "[" — appending a message whose content starts with "[" (whether a
synthesized placeholder or a genuine user message) contributes zero words to
`total_words`, while `total_messages` (the average-length denominator) still
counts it. -/
theorem c9_bracket_prefix_content_excluded_from_words :
    ∀ (store : Store) (msgs : List UserMsg) (m : UserMsg) (contents : List String)
      (r : MessageRecord),
      lookupContents store msgs = some contents →
      storeLookup store m.message_id = some r →
      pyStartsWith r.content "[" = true →
      (calcUserStats store (msgs ++ [m])).map (fun st => (st.total_words, st.total_messages))
        = some ((((contents.filter fun c => !pyStartsWith c "[").map wordCount).sum,
            msgs.length + 1)) := by
  intro store msgs m contents r hlc hm hbr
  have hlc2 : lookupContents store (msgs ++ [m]) = some (contents ++ [r.content]) := by
    unfold lookupContents at hlc ⊢
    rw [List.mapM_append]
    rw [hlc]
    simp [List.mapM.loop, hm]
  have hemp : (msgs ++ [m]).isEmpty = false := by
    cases msgs with
    | nil => rfl
    | cons a as => rfl
  unfold calcUserStats
  rw [hemp]
  simp only [Bool.false_eq_true, if_false]
  unfold statsFor
  rw [hlc2]
  simp only [Option.map_some']
  have hfilter : ((contents ++ [r.content]).filter fun c => !pyStartsWith c "[")
      = contents.filter fun c => !pyStartsWith c "[" := by
    rw [List.filter_append]
    simp [hbr]
  have hwords : (pySplit (joinSpace ((contents ++ [r.content]).filter
        fun c => !pyStartsWith c "["))).length
      = ((contents.filter fun c => !pyStartsWith c "[").map wordCount).sum := by
    rw [hfilter,
      show ∀ (s : String), (pySplit s).length = wordCount s from fun _ => rfl,
      wordCount_joinSpace]
  simp only [hwords, List.length_append, List.length_cons, List.length_nil]

/-- Witness for C9: the genuine message "[citation needed] sure" contributes
zero words while the denominator counts both messages. -/
theorem c9_bracket_prefix_content_excluded_from_words_witness :
    (calcUserStats
        [("1", ⟨"u1", "Alice", none, "hello world", "UNKNOWN_TIMESTAMP", none, "1"⟩),
         ("2", ⟨"u1", "Alice", none, "[citation needed] sure", "UNKNOWN_TIMESTAMP", none, "2"⟩)]
        ([⟨"UNKNOWN_TIMESTAMP", "hello world", none, [], "1"⟩] ++
         [⟨"UNKNOWN_TIMESTAMP", "[citation needed] sure", none, [], "2"⟩])).map
      (fun st => (st.total_words, st.total_messages)) = some ((2, 2)) :=
  (c9_bracket_prefix_content_excluded_from_words
    [("1", ⟨"u1", "Alice", none, "hello world", "UNKNOWN_TIMESTAMP", none, "1"⟩),
     ("2", ⟨"u1", "Alice", none, "[citation needed] sure", "UNKNOWN_TIMESTAMP", none, "2"⟩)]
    [⟨"UNKNOWN_TIMESTAMP", "hello world", none, [], "1"⟩]
    ⟨"UNKNOWN_TIMESTAMP", "[citation needed] sure", none, [], "2"⟩
    ["hello world"]
    ⟨"u1", "Alice", none, "[citation needed] sure", "UNKNOWN_TIMESTAMP", none, "2"⟩
    (by decide) (by decide) (by decide)).trans (by decide)

end DiscordExtractor
